import Mathlib

/-!
Verification of the triangle-mesh rendering core (TriangleMesh, OpenGLView)
of the GDV exercise repository, shallowly embedded over exact rationals.
`float` values are modelled as `ℚ`; where IEEE-754 special values decide a
property, a dedicated `FP` type with NaN and infinities is used.  Calls to
`std::sqrt` on values that are in general irrational are modelled by a
function parameter constrained to the defining property of the square root.
-/

/-- 3-component vector, modelling `Vec3f` (exact arithmetic over `ℚ`). -/
structure Vec3 where
  x : ℚ
  y : ℚ
  z : ℚ
deriving DecidableEq

instance : Add Vec3 := ⟨fun u v => ⟨u.x + v.x, u.y + v.y, u.z + v.z⟩⟩

instance : Sub Vec3 := ⟨fun u v => ⟨u.x - v.x, u.y - v.y, u.z - v.z⟩⟩

instance : SMul ℚ Vec3 := ⟨fun q v => ⟨q * v.x, q * v.y, q * v.z⟩⟩

instance : Zero Vec3 := ⟨⟨0, 0, 0⟩⟩

/-- A frustum plane `(a, b, c, d)` as in the local `struct Plane` of
`TriangleMesh::boundingBoxIsVisible`. -/
structure Plane where
  a : ℚ
  b : ℚ
  c : ℚ
  d : ℚ
deriving DecidableEq

/-- `Plane::normalize`, with the value of `std::sqrt(a*a + b*b + c*c)`
supplied as the argument `len` (the square root of a rational is in general
irrational; theorems constrain `len` to the defining property of `sqrt`). -/
def Plane.normalizeBy (p : Plane) (len : ℚ) : Plane :=
  ⟨p.a / len, p.b / len, p.c / len, p.d / len⟩

/-- The signed plane expression `plane.a * corner.x + plane.b * corner.y +
plane.c * corner.z + plane.d` from the corner test. -/
def Plane.eval (p : Plane) (v : Vec3) : ℚ :=
  p.a * v.x + p.b * v.y + p.c * v.z + p.d

/-- The six `planes[0..5]` extracted from the flat clip-matrix array `m` in
`TriangleMesh::boundingBoxIsVisible` (lines 602-607 of trianglemesh.cpp). -/
def extractPlanes (m : ℕ → ℚ) : List Plane :=
  [⟨m 3 - m 0, m 7 - m 4, m 11 - m 8, m 15 - m 12⟩,
   ⟨m 3 + m 0, m 7 + m 4, m 11 + m 8, m 15 + m 12⟩,
   ⟨m 3 + m 1, m 7 + m 5, m 11 + m 9, m 15 + m 13⟩,
   ⟨m 3 - m 1, m 7 - m 5, m 11 - m 9, m 15 - m 13⟩,
   ⟨m 3 + m 2, m 7 + m 6, m 11 + m 10, m 15 + m 14⟩,
   ⟨m 3 - m 2, m 7 - m 6, m 11 - m 10, m 15 - m 14⟩]

/-- The `corners[8]` array built from the bounding-box `min`/`max`
vectors, in source order. -/
def corners (mn mx : Vec3) : List Vec3 :=
  [⟨mn.x, mn.y, mn.z⟩, ⟨mx.x, mn.y, mn.z⟩, ⟨mn.x, mx.y, mn.z⟩, ⟨mx.x, mx.y, mn.z⟩,
   ⟨mn.x, mn.y, mx.z⟩, ⟨mx.x, mn.y, mx.z⟩, ⟨mn.x, mx.y, mx.z⟩, ⟨mx.x, mx.y, mx.z⟩]

/-- `TriangleMesh::boundingBoxIsVisible`: extract the six planes, normalize
each (dividing by `sq p`, the modelled `std::sqrt` of the squared normal
length), and return `true` iff for every plane some corner satisfies
`a*x + b*y + c*z + d >= 0` (the source's early-`return false` loop is the
`all`/`any` combination). -/
def boundingBoxIsVisible (sq : Plane → ℚ) (m : ℕ → ℚ) (mn mx : Vec3) : Bool :=
  ((extractPlanes m).map (fun p => p.normalizeBy (sq p))).all
    (fun p => (corners mn mx).any (fun c => decide (0 ≤ p.eval c)))

theorem Plane.normalizeBy_eval_nonneg (p : Plane) (len : ℚ) (hl : 0 < len) (v : Vec3) :
    0 ≤ (p.normalizeBy len).eval v ↔ 0 ≤ p.eval v := by
  have h : (p.normalizeBy len).eval v = p.eval v / len := by
    simp only [Plane.normalizeBy, Plane.eval]
    field_simp
  rw [h, le_div_iff₀ hl, zero_mul]

/-- C1: the visibility test extracts the six planes with exactly the stated
formulas, normalizes each by the square root of `a² + b² + c²` (supplied as
the function `sq`, constrained to be that square root and positive), and
reports the box visible iff every plane has at least one of the 8 corners
with `a*x + b*y + c*z + d ≥ 0`; equivalently it reports not-visible exactly
when some plane has all 8 corners strictly on its negative side. -/
theorem C1_frustum_culling (sq : Plane → ℚ) (m : ℕ → ℚ) (mn mx : Vec3)
    (hsq : ∀ p ∈ extractPlanes m, 0 < sq p ∧ (sq p) ^ 2 = p.a ^ 2 + p.b ^ 2 + p.c ^ 2) :
    (boundingBoxIsVisible sq m mn mx = true ↔
      ∀ p ∈ extractPlanes m, ∃ v ∈ corners mn mx, 0 ≤ p.eval v) ∧
    (boundingBoxIsVisible sq m mn mx = false ↔
      ∃ p ∈ extractPlanes m, ∀ v ∈ corners mn mx, p.eval v < 0) := by
  have key : boundingBoxIsVisible sq m mn mx = true ↔
      ∀ p ∈ extractPlanes m, ∃ v ∈ corners mn mx, 0 ≤ p.eval v := by
    simp only [boundingBoxIsVisible, List.all_eq_true, List.any_eq_true,
      List.mem_map, decide_eq_true_eq, forall_exists_index, and_imp,
      forall_apply_eq_imp_iff₂]
    constructor
    · intro h p hp
      obtain ⟨v, hv, hone⟩ := h p hp
      exact ⟨v, hv, (Plane.normalizeBy_eval_nonneg p (sq p) (hsq p hp).1 v).mp hone⟩
    · intro h p hp
      obtain ⟨v, hv, hone⟩ := h p hp
      exact ⟨v, hv, (Plane.normalizeBy_eval_nonneg p (sq p) (hsq p hp).1 v).mpr hone⟩
  refine ⟨key, ?_⟩
  rw [← Bool.not_eq_true, key]
  push_neg
  simp only [not_le]

/-- The identity clip matrix as a flat 16-entry array. -/
def idClip : ℕ → ℚ :=
  fun i => if i = 0 ∨ i = 5 ∨ i = 10 ∨ i = 15 then 1 else 0

theorem C1_frustum_culling_witness :
    (∀ p ∈ extractPlanes idClip,
      0 < (fun _ : Plane => (1 : ℚ)) p ∧
        ((fun _ : Plane => (1 : ℚ)) p) ^ 2 = p.a ^ 2 + p.b ^ 2 + p.c ^ 2) ∧
    ((boundingBoxIsVisible (fun _ => 1) idClip ⟨-1, -1, -1⟩ ⟨1, 1, 1⟩ = true ↔
      ∀ p ∈ extractPlanes idClip, ∃ v ∈ corners ⟨-1, -1, -1⟩ ⟨1, 1, 1⟩, 0 ≤ p.eval v) ∧
    (boundingBoxIsVisible (fun _ => 1) idClip ⟨-1, -1, -1⟩ ⟨1, 1, 1⟩ = false ↔
      ∃ p ∈ extractPlanes idClip, ∀ v ∈ corners ⟨-1, -1, -1⟩ ⟨1, 1, 1⟩, p.eval v < 0)) :=
  ⟨by intro p hp; simp only [extractPlanes, idClip] at hp; norm_num at hp
      rcases hp with h | h | h | h | h | h <;> subst h <;> norm_num,
   C1_frustum_culling (fun _ => 1) idClip ⟨-1, -1, -1⟩ ⟨1, 1, 1⟩
    (by intro p hp; simp only [extractPlanes, idClip] at hp; norm_num at hp
        rcases hp with h | h | h | h | h | h <;> subst h <;> norm_num)⟩

/-- Exact square root on `ℚ` for perfect squares: `std::sqrt` is modelled by
this function only at arguments whose numerator and denominator are perfect
squares (every concrete use in this file is of that form). -/
def ratSqrt (q : ℚ) : ℚ := (Nat.sqrt q.num.toNat : ℚ) / (Nat.sqrt q.den : ℚ)

/-- IEEE-754-style value domain (finite rationals, infinities, NaN) used
where a claim is decided by float special values; no signed zero. -/
inductive FP where
  | num (q : ℚ)
  | inf (pos : Bool)
  | nan
deriving DecidableEq

def FP.add : FP → FP → FP
  | nan, _ => nan
  | _, nan => nan
  | num a, num b => num (a + b)
  | inf s, num _ => inf s
  | num _, inf s => inf s
  | inf s, inf t => if s = t then inf s else nan

def FP.neg : FP → FP
  | nan => nan
  | inf s => inf (!s)
  | num a => num (-a)

def FP.sub (x y : FP) : FP := FP.add x (FP.neg y)

def FP.mul : FP → FP → FP
  | nan, _ => nan
  | _, nan => nan
  | num a, num b => num (a * b)
  | inf s, num b => if b = 0 then nan else inf (s = decide (0 < b))
  | num a, inf s => if a = 0 then nan else inf (s = decide (0 < a))
  | inf s, inf t => inf (s = t)

def FP.div : FP → FP → FP
  | nan, _ => nan
  | _, nan => nan
  | num a, num b =>
      if b = 0 then (if a = 0 then nan else inf (decide (0 < a))) else num (a / b)
  | inf s, num b => if b = 0 then inf s else inf (s = decide (0 < b))
  | num _, inf _ => num 0
  | inf _, inf _ => nan

/-- The comparison `x >= y`; any comparison involving NaN is `false`. -/
def FP.ge : FP → FP → Bool
  | nan, _ => false
  | _, nan => false
  | num a, num b => decide (b ≤ a)
  | inf s, num _ => s
  | num _, inf s => !s
  | inf s, inf t => s || !t

/-- `std::sqrt` on the FP domain (exact on perfect-square rationals,
which covers every use in this file). -/
def FP.sqrt : FP → FP
  | nan => nan
  | inf s => if s then inf true else nan
  | num q => if q < 0 then nan else num (ratSqrt q)

/-- The local `struct Plane` over IEEE-style values. -/
structure FPPlane where
  a : FP
  b : FP
  c : FP
  d : FP
deriving DecidableEq

/-- `Plane::normalize` exactly as written: `length = sqrt(a*a + b*b + c*c)`
then divide all four components by `length` — with no zero-length guard. -/
def FPPlane.normalize (p : FPPlane) : FPPlane :=
  let length := FP.sqrt (FP.add (FP.add (FP.mul p.a p.a) (FP.mul p.b p.b)) (FP.mul p.c p.c))
  ⟨FP.div p.a length, FP.div p.b length, FP.div p.c length, FP.div p.d length⟩

/-- The six planes extracted from the flat clip matrix, over FP values. -/
def fpExtractPlanes (m : ℕ → FP) : List FPPlane :=
  [⟨FP.sub (m 3) (m 0), FP.sub (m 7) (m 4), FP.sub (m 11) (m 8), FP.sub (m 15) (m 12)⟩,
   ⟨FP.add (m 3) (m 0), FP.add (m 7) (m 4), FP.add (m 11) (m 8), FP.add (m 15) (m 12)⟩,
   ⟨FP.add (m 3) (m 1), FP.add (m 7) (m 5), FP.add (m 11) (m 9), FP.add (m 15) (m 13)⟩,
   ⟨FP.sub (m 3) (m 1), FP.sub (m 7) (m 5), FP.sub (m 11) (m 9), FP.sub (m 15) (m 13)⟩,
   ⟨FP.add (m 3) (m 2), FP.add (m 7) (m 6), FP.add (m 11) (m 10), FP.add (m 15) (m 14)⟩,
   ⟨FP.sub (m 3) (m 2), FP.sub (m 7) (m 6), FP.sub (m 11) (m 10), FP.sub (m 15) (m 14)⟩]

/-- `plane.a * corner.x + plane.b * corner.y + plane.c * corner.z + plane.d`
over FP values (corner coordinates are finite). -/
def fpEval (p : FPPlane) (v : Vec3) : FP :=
  FP.add (FP.add (FP.add (FP.mul p.a (FP.num v.x)) (FP.mul p.b (FP.num v.y)))
    (FP.mul p.c (FP.num v.z))) p.d

/-- `TriangleMesh::boundingBoxIsVisible` over IEEE-style values, exactly the
source: extract six planes, normalize each (unguarded division), report
visible iff every plane has a corner with `eval >= 0`. -/
def fpBoundingBoxIsVisible (m : ℕ → FP) (mn mx : Vec3) : Bool :=
  ((fpExtractPlanes m).map FPPlane.normalize).all
    (fun p => (corners mn mx).any (fun c => FP.ge (fpEval p c) (FP.num 0)))

/-- The all-zero (degenerate) clip matrix. -/
def zeroClip : ℕ → FP := fun _ => FP.num 0

/-- C2 (code bug): `Plane::normalize` has no zero-length guard.  On the
degenerate all-zero clip matrix every plane has a zero-length normal; the
code divides by zero, `0/0` yields NaN in every component, every corner
comparison `NaN >= 0` is false, and the box is reported NOT visible — the
degenerate plane culls the box, contrary to the claim that the division is
skipped and such a plane never causes culling. -/
theorem C2_degenerate_plane_culls :
    fpBoundingBoxIsVisible zeroClip ⟨-1, -1, -1⟩ ⟨1, 1, 1⟩ = false := by
  norm_num [fpBoundingBoxIsVisible, fpExtractPlanes, zeroClip, FPPlane.normalize,
    corners, FP.sub, FP.neg, FP.add, FP.mul, FP.div, FP.sqrt, ratSqrt, fpEval, FP.ge,
    Nat.sqrt_zero, Nat.sqrt_one]

theorem Vec3.ext_fields : ∀ {u v : Vec3}, u.x = v.x → u.y = v.y → u.z = v.z → u = v
  | ⟨_, _, _⟩, ⟨_, _, _⟩, rfl, rfl, rfl => rfl

theorem Vec3.mk_add_mk (a b c d e f : ℚ) :
    (⟨a, b, c⟩ : Vec3) + ⟨d, e, f⟩ = ⟨a + d, b + e, c + f⟩ := rfl

theorem Vec3.mk_sub_mk (a b c d e f : ℚ) :
    (⟨a, b, c⟩ : Vec3) - ⟨d, e, f⟩ = ⟨a - d, b - e, c - f⟩ := rfl

theorem Vec3.smul_mk (q a b c : ℚ) : q • (⟨a, b, c⟩ : Vec3) = ⟨q * a, q * b, q * c⟩ := rfl

theorem Vec3.zero_def : (0 : Vec3) = ⟨0, 0, 0⟩ := rfl

theorem Vec3.add_x (u v : Vec3) : (u + v).x = u.x + v.x := rfl

theorem Vec3.add_y (u v : Vec3) : (u + v).y = u.y + v.y := rfl

theorem Vec3.add_z (u v : Vec3) : (u + v).z = u.z + v.z := rfl

instance : AddCommMonoid Vec3 where
  add_assoc a b c := Vec3.ext_fields (add_assoc _ _ _) (add_assoc _ _ _) (add_assoc _ _ _)
  zero_add a := Vec3.ext_fields (zero_add _) (zero_add _) (zero_add _)
  add_zero a := Vec3.ext_fields (add_zero _) (add_zero _) (add_zero _)
  add_comm a b := Vec3.ext_fields (add_comm _ _) (add_comm _ _) (add_comm _ _)
  nsmul := nsmulRec

/-- Modelled from the spec: `cross` of vec3.h is not under src/; per the spec
("compute the (non-normalized) cross product of two edge vectors") it is the
standard right-handed cross product. -/
def cross (u v : Vec3) : Vec3 :=
  ⟨u.y * v.z - u.z * v.y, u.z * v.x - u.x * v.z, u.x * v.y - u.y * v.x⟩

/-- Modelled from the spec: `Vec3f::normalize` of vec3.h is not under src/;
per the spec ("normalize every per-vertex normal") it divides the vector by
its Euclidean length, modelled via `ratSqrt` of the squared length (exact on
perfect squares; the zero vector is unchanged since `x / 0 = 0` over `ℚ`). -/
def Vec3.normalize (v : Vec3) : Vec3 :=
  let len := ratSqrt (v.x * v.x + v.y * v.y + v.z * v.z)
  ⟨v.x / len, v.y / len, v.z / len⟩

/-- A triangle record: three vertex indices, as in `Triangle`/`triangles[i]`. -/
structure Triangle where
  i0 : ℕ
  i1 : ℕ
  i2 : ℕ
deriving DecidableEq

/-- `normals[id] += normal`: add `n` to entry `i` (an out-of-range `i`
leaves the list unchanged; the theorems' hypotheses keep the modelled
accesses in bounds). -/
def addAt (ns : List Vec3) (i : ℕ) (n : Vec3) : List Vec3 :=
  ns.set i (ns.getD i 0 + n)

/-- `std::vector::resize(n)`: truncate or extend with value-initialized
(zero) elements. -/
def resizeVec3 (ns : List Vec3) (n : ℕ) : List Vec3 :=
  ns.take n ++ List.replicate (n - ns.length) 0

/-- The loop body of `calculateNormalsByArea`:
`vec1 = vertices[id1] - vertices[id0]`, `vec2 = vertices[id2] - vertices[id0]`,
`normal = cross(vec1, vec2)`. -/
def triNormal (vertices : List Vec3) (t : Triangle) : Vec3 :=
  cross (vertices.getD t.i1 0 - vertices.getD t.i0 0)
    (vertices.getD t.i2 0 - vertices.getD t.i0 0)

/-- One iteration of the accumulation loop: `normals[id0] += normal;
normals[id1] += normal; normals[id2] += normal`. -/
def accStep (vertices : List Vec3) (ns : List Vec3) (t : Triangle) : List Vec3 :=
  addAt (addAt (addAt ns t.i0 (triNormal vertices t)) t.i1 (triNormal vertices t)) t.i2
    (triNormal vertices t)

/-- Pass 1 of `TriangleMesh::calculateNormalsByArea`: resize `normals` to the
vertex count, then accumulate every triangle's cross product into its three
vertices' entries. -/
def accumulateNormals (vertices : List Vec3) (normals0 : List Vec3)
    (triangles : List Triangle) : List Vec3 :=
  triangles.foldl (accStep vertices) (resizeVec3 normals0 vertices.length)

/-- `TriangleMesh::calculateNormalsByArea`: accumulation pass, then
normalize every per-vertex normal. -/
def calculateNormalsByArea (vertices : List Vec3) (normals0 : List Vec3)
    (triangles : List Triangle) : List Vec3 :=
  (accumulateNormals vertices normals0 triangles).map Vec3.normalize

/-- How many of the three index slots of the triangle `t` equal `i`. -/
def incidenceCount (t : Triangle) (i : ℕ) : ℚ :=
  (if t.i0 = i then 1 else 0) + (if t.i1 = i then 1 else 0) + (if t.i2 = i then 1 else 0)

theorem addAt_length (ns : List Vec3) (j : ℕ) (n : Vec3) :
    (addAt ns j n).length = ns.length :=
  List.length_set ns j _

theorem addAt_getD (ns : List Vec3) (j : ℕ) (n : Vec3) (i : ℕ) (hi : i < ns.length) :
    (addAt ns j n).getD i 0 = ns.getD i 0 + (if j = i then n else 0) := by
  rcases eq_or_ne j i with rfl | hne
  · rw [if_pos rfl, addAt, List.getD_eq_getElem?_getD, List.getElem?_set_self hi,
      Option.getD_some]
  · rw [if_neg hne, addAt, List.getD_eq_getElem?_getD, List.getElem?_set_ne hne,
      ← List.getD_eq_getElem?_getD, add_zero]

theorem accStep_length (vertices ns : List Vec3) (t : Triangle) :
    (accStep vertices ns t).length = ns.length := by
  rw [accStep, addAt_length, addAt_length, addAt_length]

theorem accStep_getD (vertices ns : List Vec3) (t : Triangle) (i : ℕ) (hi : i < ns.length) :
    (accStep vertices ns t).getD i 0
      = ns.getD i 0 + incidenceCount t i • triNormal vertices t := by
  rw [accStep,
    addAt_getD _ _ _ _ (by rw [addAt_length, addAt_length]; exact hi),
    addAt_getD _ _ _ _ (by rw [addAt_length]; exact hi),
    addAt_getD _ _ _ _ hi, add_assoc, add_assoc]
  congr 1
  rw [← add_assoc]
  rcases (triNormal vertices t) with ⟨nx, ny, nz⟩
  apply Vec3.ext_fields <;>
    rcases eq_or_ne t.i0 i with h0 | h0 <;>
    rcases eq_or_ne t.i1 i with h1 | h1 <;>
    rcases eq_or_ne t.i2 i with h2 | h2 <;>
      simp [h0, h1, h2, incidenceCount, Vec3.smul_mk, Vec3.mk_add_mk, Vec3.zero_def,
        Vec3.add_x, Vec3.add_y, Vec3.add_z] <;> ring

theorem accFold_length (vertices : List Vec3) (ts : List Triangle) (init : List Vec3) :
    (ts.foldl (accStep vertices) init).length = init.length := by
  induction ts generalizing init with
  | nil => rfl
  | cons t ts ih => rw [List.foldl_cons, ih, accStep_length]

theorem accFold_getD (vertices : List Vec3) (ts : List Triangle) (init : List Vec3)
    (i : ℕ) (hi : i < init.length) :
    (ts.foldl (accStep vertices) init).getD i 0
      = init.getD i 0 + (ts.map (fun t => incidenceCount t i • triNormal vertices t)).sum := by
  induction ts generalizing init with
  | nil => simp
  | cons t ts ih =>
    rw [List.foldl_cons, ih _ (by rw [accStep_length]; exact hi),
      accStep_getD _ _ _ _ hi, List.map_cons, List.sum_cons, add_assoc]

theorem resizeVec3_nil_getD (n i : ℕ) : (resizeVec3 [] n).getD i 0 = 0 := by
  rw [resizeVec3, List.getD_eq_getElem?_getD]
  simp only [List.take_nil, List.nil_append, List.length_nil, Nat.sub_zero,
    List.getElem?_replicate]
  split <;> rfl

theorem resizeVec3_length (ns : List Vec3) (n : ℕ) : (resizeVec3 ns n).length = n := by
  simp [resizeVec3]
  omega

/-- C3: `calculateNormalsByArea` is the fixed two-pass algorithm — on a mesh
with no pre-existing normals, the resulting normal of vertex `i` is the
normalization of the sum, over the triangle list, of each triangle's
non-normalized edge cross product counted once per index slot incident to
`i`; and on the single triangle `(0,0,0),(1,0,0),(0,1,0)` it yields the unit
normal `(0,0,1)` at all three vertices. -/
theorem C3_normals_by_area :
    (∀ (vertices : List Vec3) (triangles : List Triangle) (i : ℕ),
        i < vertices.length →
        (calculateNormalsByArea vertices [] triangles).getD i 0
          = Vec3.normalize
              ((triangles.map (fun t => incidenceCount t i • triNormal vertices t)).sum)) ∧
    calculateNormalsByArea [⟨0, 0, 0⟩, ⟨1, 0, 0⟩, ⟨0, 1, 0⟩] [] [⟨0, 1, 2⟩]
      = [⟨0, 0, 1⟩, ⟨0, 0, 1⟩, ⟨0, 0, 1⟩] := by
  constructor
  · intro vertices triangles i hi
    have hlen : i < (accumulateNormals vertices [] triangles).length := by
      rw [accumulateNormals, accFold_length, resizeVec3_length]; exact hi
    have hval : (accumulateNormals vertices [] triangles).getD i 0
        = (triangles.map (fun t => incidenceCount t i • triNormal vertices t)).sum := by
      rw [accumulateNormals, accFold_getD _ _ _ _ (by rw [resizeVec3_length]; exact hi),
        resizeVec3_nil_getD, zero_add]
    rw [calculateNormalsByArea, List.getD_eq_getElem?_getD, List.getElem?_map,
      List.getElem?_eq_getElem hlen]
    rw [List.getD_eq_getElem?_getD, List.getElem?_eq_getElem hlen, Option.getD_some] at hval
    simp only [Option.map_some', Option.getD_some, hval]
  · have hn : triNormal [⟨0, 0, 0⟩, ⟨1, 0, 0⟩, ⟨0, 1, 0⟩] ⟨0, 1, 2⟩ = ⟨0, 0, 1⟩ := by
      rw [triNormal, cross]
      apply Vec3.ext_fields <;>
        norm_num [List.getD_cons_zero, List.getD_cons_succ, Vec3.mk_sub_mk]
    have hacc : accumulateNormals [⟨0, 0, 0⟩, ⟨1, 0, 0⟩, ⟨0, 1, 0⟩] [] [⟨0, 1, 2⟩]
        = [⟨0, 0, 1⟩, ⟨0, 0, 1⟩, ⟨0, 0, 1⟩] := by
      rw [accumulateNormals, List.foldl_cons, List.foldl_nil, accStep, hn]
      norm_num [resizeVec3, List.replicate, addAt, List.getD_cons_zero,
        List.getD_cons_succ, Vec3.zero_def, Vec3.mk_add_mk]
    rw [calculateNormalsByArea, hacc]
    norm_num [Vec3.normalize, ratSqrt, Rat.num_one, Rat.den_one, Nat.sqrt_one,
      Nat.sqrt_zero]

theorem C3_normals_by_area_witness :
    (0 : ℕ) < ([⟨0, 0, 0⟩, ⟨1, 0, 0⟩, ⟨0, 1, 0⟩] : List Vec3).length ∧
    (calculateNormalsByArea [⟨0, 0, 0⟩, ⟨1, 0, 0⟩, ⟨0, 1, 0⟩] [] [⟨0, 1, 2⟩]).getD 0 0
      = Vec3.normalize
          (([(⟨0, 1, 2⟩ : Triangle)].map (fun t =>
              incidenceCount t 0 • triNormal [⟨0, 0, 0⟩, ⟨1, 0, 0⟩, ⟨0, 1, 0⟩] t)).sum) :=
  ⟨by norm_num,
   C3_normals_by_area.1 [⟨0, 0, 0⟩, ⟨1, 0, 0⟩, ⟨0, 1, 0⟩] [⟨0, 1, 2⟩] 0 (by norm_num)⟩

theorem flatMap_const_length {α : Type} (f : ℕ → List α) (L : ℕ)
    (hf : ∀ j, (f j).length = L) (n : ℕ) :
    ((List.range n).flatMap f).length = n * L := by
  induction n with
  | zero => simp
  | succ n ih =>
    rw [List.range_succ, List.flatMap_append, List.length_append, ih,
      List.flatMap_cons, List.flatMap_nil, List.append_nil, hf]
    ring

theorem flatMap_const_length_getElem {α : Type} (f : ℕ → List α) (L : ℕ)
    (hf : ∀ j, (f j).length = L) (n z x : ℕ) (hz : z < n) (hx : x < L) :
    ((List.range n).flatMap f)[z * L + x]? = (f z)[x]? := by
  induction n with
  | zero => omega
  | succ n ih =>
    rw [List.range_succ, List.flatMap_append, List.getElem?_append,
      List.flatMap_cons, List.flatMap_nil, List.append_nil]
    rw [flatMap_const_length f L hf n]
    rcases Nat.lt_or_ge z n with hzn | hzn
    · rw [if_pos (by nlinarith)]
      exact ih hzn
    · have hzn2 : z = n := by omega
      subst hzn2
      rw [if_neg (by omega)]
      have hsub : z * L + x - z * L = x := by omega
      rw [hsub]

/-- One row of the terrain vertex loop (inner `x` loop of part_003 lines
859-869): the vertex for grid point `(x, z)` is `(x, heightmap[x][z], z)`.
The diamond-square height field — driven by the source's unseeded random
generator — is modelled by the parameter `hm`. -/
def terrainRow (w : ℕ) (hm : ℕ → ℕ → ℚ) (z : ℕ) : List Vec3 :=
  (List.range (w + 1)).map fun (x : ℕ) => (⟨(x : ℚ), hm x z, (z : ℚ)⟩ : Vec3)

/-- Vertex emission loop of `TriangleMesh::generateTerrain`: rows for
`z = 0..h`, each with entries `x = 0..w`. -/
def terrainVertices (w h : ℕ) (hm : ℕ → ℕ → ℚ) : List Vec3 :=
  (List.range (h + 1)).flatMap fun z => terrainRow w hm z

/-- The two triangles of grid cell `(x, z)` (part_003 lines 872-884):
`i0 = z*(w+1)+x`, `i1 = i0+1`, `i2 = (z+1)*(w+1)+x`, `i3 = i2+1`, emitted
as `(i0, i2, i1)` then `(i1, i2, i3)`. -/
def cellTriangles (w z x : ℕ) : List Triangle :=
  [⟨z * (w + 1) + x, (z + 1) * (w + 1) + x, z * (w + 1) + x + 1⟩,
   ⟨z * (w + 1) + x + 1, (z + 1) * (w + 1) + x, (z + 1) * (w + 1) + x + 1⟩]

/-- Triangle emission loop of `TriangleMesh::generateTerrain`: two triangles
per cell, cells in row-major order. -/
def terrainTriangles (w h : ℕ) : List Triangle :=
  (List.range h).flatMap fun z => (List.range w).flatMap fun x => cellTriangles w z x

theorem terrainRow_length (w : ℕ) (hm : ℕ → ℕ → ℚ) (z : ℕ) :
    (terrainRow w hm z).length = w + 1 := by
  simp [terrainRow]

theorem terrainVertices_getElem (w h : ℕ) (hm : ℕ → ℕ → ℚ) (z x : ℕ)
    (hz : z ≤ h) (hx : x ≤ w) :
    (terrainVertices w h hm)[z * (w + 1) + x]? = some ⟨(x : ℚ), hm x z, (z : ℚ)⟩ := by
  rw [terrainVertices,
    flatMap_const_length_getElem (fun z => terrainRow w hm z) (w + 1)
      (fun j => terrainRow_length w hm j) (h + 1) z x (by omega) (by omega)]
  rw [terrainRow, List.getElem?_map, List.getElem?_range (show x < w + 1 by omega),
    Option.map_some']

theorem terrainTriangles_getElem (w h : ℕ) (z x : ℕ) (hz : z < h) (hx : x < w) :
    (terrainTriangles w h)[2 * (z * w + x)]?
        = some ⟨z * (w + 1) + x, (z + 1) * (w + 1) + x, z * (w + 1) + x + 1⟩ ∧
      (terrainTriangles w h)[2 * (z * w + x) + 1]?
        = some ⟨z * (w + 1) + x + 1, (z + 1) * (w + 1) + x, (z + 1) * (w + 1) + x + 1⟩ := by
  have hrow : ∀ j, ((List.range w).flatMap fun x => cellTriangles w j x).length = w * 2 :=
    fun j => flatMap_const_length (fun x => cellTriangles w j x) 2 (fun _ => rfl) w
  constructor
  · have hidx : 2 * (z * w + x) = z * (w * 2) + (x * 2 + 0) := by ring
    rw [terrainTriangles, hidx,
      flatMap_const_length_getElem (fun z => (List.range w).flatMap fun x => cellTriangles w z x)
        (w * 2) hrow h z (x * 2 + 0) hz (by omega),
      flatMap_const_length_getElem (fun x => cellTriangles w z x) 2 (fun _ => rfl) w x 0 hx
        (by omega)]
    rfl
  · have hidx : 2 * (z * w + x) + 1 = z * (w * 2) + (x * 2 + 1) := by ring
    rw [terrainTriangles, hidx,
      flatMap_const_length_getElem (fun z => (List.range w).flatMap fun x => cellTriangles w z x)
        (w * 2) hrow h z (x * 2 + 1) hz (by omega),
      flatMap_const_length_getElem (fun x => cellTriangles w z x) 2 (fun _ => rfl) w x 1 hx
        (by omega)]
    rfl

/-- C4: for positive grid dimensions `w`, `h` (and any realized height
field), `generateTerrain` emits exactly `(w+1)*(h+1)` vertices — the grid
point `(x, z)` at row-major index `z*(w+1)+x` with position
`(x, height, z)` — and exactly `2*w*h` triangles — two per cell, the pair
`(i0, i2, i1)` and `(i1, i2, i3)` at consecutive indices. -/
theorem C4_generate_terrain (w h : ℕ) (hm : ℕ → ℕ → ℚ) (_hw : 0 < w) (_hh : 0 < h) :
    (terrainVertices w h hm).length = (w + 1) * (h + 1) ∧
    (terrainTriangles w h).length = 2 * w * h ∧
    (∀ z x, z ≤ h → x ≤ w →
      (terrainVertices w h hm)[z * (w + 1) + x]? = some ⟨(x : ℚ), hm x z, (z : ℚ)⟩) ∧
    (∀ z x, z < h → x < w →
      (terrainTriangles w h)[2 * (z * w + x)]?
          = some ⟨z * (w + 1) + x, (z + 1) * (w + 1) + x, z * (w + 1) + x + 1⟩ ∧
        (terrainTriangles w h)[2 * (z * w + x) + 1]?
          = some ⟨z * (w + 1) + x + 1, (z + 1) * (w + 1) + x, (z + 1) * (w + 1) + x + 1⟩) := by
  refine ⟨?_, ?_, fun z x hz hx => terrainVertices_getElem w h hm z x hz hx,
    fun z x hz hx => terrainTriangles_getElem w h z x hz hx⟩
  · rw [terrainVertices,
      flatMap_const_length (fun z => terrainRow w hm z) (w + 1)
        (fun j => terrainRow_length w hm j) (h + 1)]
    ring
  · rw [terrainTriangles,
      flatMap_const_length (fun z => (List.range w).flatMap fun x => cellTriangles w z x)
        (w * 2)
        (fun j => flatMap_const_length (fun x => cellTriangles w j x) 2 (fun _ => rfl) w) h]
    ring

theorem C4_generate_terrain_witness :
    ((0 : ℕ) < 1 ∧ (0 : ℕ) < 1) ∧
    ((terrainVertices 1 1 (fun _ _ => 0)).length = (1 + 1) * (1 + 1) ∧
      (terrainTriangles 1 1).length = 2 * 1 * 1 ∧
      (∀ z x, z ≤ 1 → x ≤ 1 →
        (terrainVertices 1 1 (fun _ _ => 0))[z * (1 + 1) + x]?
          = some ⟨(x : ℚ), (fun _ _ => (0 : ℚ)) x z, (z : ℚ)⟩) ∧
      (∀ z x, z < 1 → x < 1 →
        (terrainTriangles 1 1)[2 * (z * 1 + x)]?
            = some ⟨z * (1 + 1) + x, (z + 1) * (1 + 1) + x, z * (1 + 1) + x + 1⟩ ∧
          (terrainTriangles 1 1)[2 * (z * 1 + x) + 1]?
            = some ⟨z * (1 + 1) + x + 1, (z + 1) * (1 + 1) + x, (z + 1) * (1 + 1) + x + 1⟩)) :=
  ⟨⟨Nat.one_pos, Nat.one_pos⟩,
   C4_generate_terrain 1 1 (fun _ _ => 0) Nat.one_pos Nat.one_pos⟩

/-- `TriangleMesh::ColoringType`. -/
inductive ColoringType where
  | STATIC_COLOR
  | COLOR_ARRAY
  | TEXTURE
  | BUMP_MAPPING
deriving DecidableEq

/-- The per-mesh GPU handles (`VAO`, `VBOf`, `VBOv`, `VBOn`, `VBOc`, `VBOt`,
`VBOtan`, and the auxiliary bounding-box and normal-visualization objects);
`0` means "no resource". -/
structure MeshHandles where
  VAO : ℕ
  VBOv : ℕ
  VBOn : ℕ
  VBOf : ℕ
  VBOc : ℕ
  VBOt : ℕ
  VBOtan : ℕ
  VAObb : ℕ
  VBOvbb : ℕ
  VBOfbb : ℕ
  VAOn : ℕ
  VBOvn : ℕ
deriving DecidableEq

/-- All handles zero: the "no GPU resources" state. -/
def MeshHandles.allZero : MeshHandles :=
  ⟨0, 0, 0, 0, 0, 0, 0, 0, 0, 0, 0, 0⟩

/-- The `TriangleMesh` data (geometry, bounding box, draw-mode state, GPU
handles); `hasGLFunctions` models whether the `QOpenGLFunctions_3_3_Core*`
member `f` is non-null. -/
structure Mesh where
  vertices : List Vec3
  triangles : List Triangle
  normals : List Vec3
  colors : List Vec3
  texCoords : List (ℚ × ℚ)
  tangents : List Vec3
  boundingBoxMin : Vec3
  boundingBoxMax : Vec3
  boundingBoxMid : Vec3
  boundingBoxSize : Vec3
  coloringType : ColoringType
  withBB : Bool
  withNormals : Bool
  staticColor : Vec3
  textureID : ℕ
  normalMapID : ℕ
  displacementMapID : ℕ
  enableDiffuseTexture : Bool
  enableNormalMapping : Bool
  enableDisplacementMapping : Bool
  handles : MeshHandles
  hasGLFunctions : Bool
deriving DecidableEq

/-- Observable GL commands of the draw path, used to compare draw-time
behaviour across coloring modes. -/
inductive GLCmd where
  | bindVertexArray (vao : ℕ)
  | uniformModelView
  | uniformNormalMatrix
  | uniformUseTexture (b : Bool)
  | activeTexture (unit : ℕ)
  | bindTexture2D (tex : ℕ)
  | uniformTextureUnit (v : ℤ)
  | enableColorAttrib
  | disableColorAttrib
  | attribStaticColor (c : Vec3)
  | uniformUseDiffuse (b : Bool)
  | uniformUseNormal (b : Bool)
  | uniformUseDisplacement (b : Bool)
  | drawElements (indexCount : ℕ)
deriving DecidableEq

/-- The `case ColoringType::STATIC_COLOR` commands of `drawVBO`: no texture,
disable the color attribute array, set the static color as the constant
attribute value. -/
def staticColorBranch (m : Mesh) : List GLCmd :=
  [.uniformUseTexture false, .disableColorAttrib, .attribStaticColor m.staticColor]

/-- The `case ColoringType::COLOR_ARRAY` commands of `drawVBO`: if the color
buffer exists use it, otherwise fall through to the STATIC_COLOR case. -/
def colorArrayBranch (m : Mesh) : List GLCmd :=
  if m.handles.VBOc ≠ 0 then [.uniformUseTexture false, .enableColorAttrib]
  else staticColorBranch m

/-- The `case ColoringType::TEXTURE` commands of `drawVBO`: if the texture
handle is nonzero bind it, otherwise fall through to the COLOR_ARRAY case. -/
def textureBranch (m : Mesh) : List GLCmd :=
  if m.textureID ≠ 0 then
    [.uniformUseTexture true, .activeTexture 0, .bindTexture2D m.textureID,
     .uniformTextureUnit 0]
  else colorArrayBranch m

/-- The `case ColoringType::BUMP_MAPPING` commands of `drawVBO`. -/
def bumpBranch (m : Mesh) : List GLCmd :=
  [.disableColorAttrib, .attribStaticColor m.staticColor,
   .uniformUseDiffuse m.enableDiffuseTexture,
   .uniformUseNormal m.enableNormalMapping,
   .uniformUseDisplacement m.enableDisplacementMapping,
   .uniformTextureUnit 0, .activeTexture 0, .bindTexture2D m.textureID,
   .uniformTextureUnit 1, .activeTexture 1, .bindTexture2D m.normalMapID,
   .uniformTextureUnit 3, .activeTexture 3, .bindTexture2D m.displacementMapID]

/-- `TriangleMesh::drawVBO` as its sequence of GL commands: bind the VAO,
write the model-view and normal-matrix uniforms, run the coloring-mode
switch (whose missing `break`s produce the TEXTURE → COLOR_ARRAY →
STATIC_COLOR fallthrough), then issue the indexed draw of all triangles. -/
def drawVBO (m : Mesh) : List GLCmd :=
  [.bindVertexArray m.handles.VAO, .uniformModelView, .uniformNormalMatrix] ++
  (match m.coloringType with
   | ColoringType.TEXTURE => textureBranch m
   | ColoringType.COLOR_ARRAY => colorArrayBranch m
   | ColoringType.STATIC_COLOR => staticColorBranch m
   | ColoringType.BUMP_MAPPING => bumpBranch m) ++
  [.drawElements (3 * m.triangles.length)]

/-- C5: draw-time coloring-mode fallback — with mode TEXTURE but texture
handle 0 the draw issues exactly the commands of mode COLOR_ARRAY; with mode
COLOR_ARRAY (directly or reached by fallback) but color-buffer handle 0 it
issues exactly the commands of mode STATIC_COLOR, which use the mesh's
static color. -/
theorem C5_coloring_fallback (m : Mesh) :
    (m.coloringType = ColoringType.TEXTURE → m.textureID = 0 →
      drawVBO m = drawVBO { m with coloringType := ColoringType.COLOR_ARRAY }) ∧
    (m.coloringType = ColoringType.COLOR_ARRAY → m.handles.VBOc = 0 →
      drawVBO m = drawVBO { m with coloringType := ColoringType.STATIC_COLOR }) ∧
    (m.coloringType = ColoringType.TEXTURE → m.textureID = 0 → m.handles.VBOc = 0 →
      drawVBO m = drawVBO { m with coloringType := ColoringType.STATIC_COLOR }) := by
  refine ⟨fun h1 h2 => ?_, fun h1 h2 => ?_, fun h1 h2 h3 => ?_⟩ <;>
    simp [drawVBO, h1, textureBranch, colorArrayBranch, staticColorBranch, h2]
  simp [h3]

/-- A mesh in TEXTURE mode whose texture handle and color buffer are absent. -/
def sampleMeshTex : Mesh where
  vertices := []
  triangles := []
  normals := []
  colors := []
  texCoords := []
  tangents := []
  boundingBoxMin := 0
  boundingBoxMax := 0
  boundingBoxMid := 0
  boundingBoxSize := 0
  coloringType := ColoringType.TEXTURE
  withBB := false
  withNormals := false
  staticColor := ⟨1, 1, 1⟩
  textureID := 0
  normalMapID := 0
  displacementMapID := 0
  enableDiffuseTexture := false
  enableNormalMapping := false
  enableDisplacementMapping := false
  handles := MeshHandles.allZero
  hasGLFunctions := true

/-- The same mesh in COLOR_ARRAY mode. -/
def sampleMeshCol : Mesh :=
  { sampleMeshTex with coloringType := ColoringType.COLOR_ARRAY }

theorem C5_coloring_fallback_witness :
    drawVBO sampleMeshTex
        = drawVBO { sampleMeshTex with coloringType := ColoringType.COLOR_ARRAY } ∧
    drawVBO sampleMeshCol
        = drawVBO { sampleMeshCol with coloringType := ColoringType.STATIC_COLOR } ∧
    drawVBO sampleMeshTex
        = drawVBO { sampleMeshTex with coloringType := ColoringType.STATIC_COLOR } :=
  ⟨(C5_coloring_fallback sampleMeshTex).1 rfl rfl,
   (C5_coloring_fallback sampleMeshCol).2.1 rfl rfl,
   (C5_coloring_fallback sampleMeshTex).2.2 rfl rfl rfl⟩

theorem Vec3.sub_x (u v : Vec3) : (u - v).x = u.x - v.x := rfl

theorem Vec3.sub_y (u v : Vec3) : (u - v).y = u.y - v.y := rfl

theorem Vec3.sub_z (u v : Vec3) : (u - v).z = u.z - v.z := rfl

theorem Vec3.smul_x (q : ℚ) (v : Vec3) : (q • v).x = q * v.x := rfl

theorem Vec3.smul_y (q : ℚ) (v : Vec3) : (q • v).y = q * v.y := rfl

theorem Vec3.smul_z (q : ℚ) (v : Vec3) : (q • v).z = q * v.z := rfl

/-- `FLT_MAX`, the sentinel the bounding-box scan starts from (`clear` sets
`boundingBoxMin = (FLT_MAX, FLT_MAX, FLT_MAX)` and `boundingBoxMax` to its
negation), as an exact rational. -/
def fltMax : ℚ := (2 - (1 / 2 ^ 23 : ℚ)) * 2 ^ 127

def clearedBBMin : Vec3 := ⟨fltMax, fltMax, fltMax⟩

def clearedBBMax : Vec3 := ⟨-fltMax, -fltMax, -fltMax⟩

/-- One iteration of the bounding-box scan over a vertex: componentwise
`min` into the running minimum and `max` into the running maximum, exactly
the six assignments of `calculateBB` (and of the `loadOFF` vertex loop). -/
def bbStep (acc : Vec3 × Vec3) (v : Vec3) : Vec3 × Vec3 :=
  (⟨min v.x acc.1.x, min v.y acc.1.y, min v.z acc.1.z⟩,
   ⟨max v.x acc.2.x, max v.y acc.2.y, max v.z acc.2.z⟩)

/-- The vertex loop of the bounding-box computation. -/
def bbScan (vs : List Vec3) (acc : Vec3 × Vec3) : Vec3 × Vec3 :=
  vs.foldl bbStep acc

/-- Axis-aligned bounding box (`boundingBoxMin/Max/Mid/Size`). -/
structure BBox where
  min : Vec3
  max : Vec3
  mid : Vec3
  size : Vec3
deriving DecidableEq

/-- `TriangleMesh::calculateBB`: reset to the sentinels, scan all vertices,
then `Mid = 0.5*Min + 0.5*Max` and `Size = Max - Min`. -/
def calculateBB (vs : List Vec3) : BBox :=
  let p := bbScan vs (clearedBBMin, clearedBBMax)
  ⟨p.1, p.2, (1 / 2 : ℚ) • p.1 + (1 / 2 : ℚ) • p.2, p.2 - p.1⟩

/-- The spec's bounding-box invariant: `Min ≤ Max` componentwise,
`Mid = (Min+Max)/2`, `Size = Max - Min`. -/
def BBox.invariant (b : BBox) : Prop :=
  (b.min.x ≤ b.max.x ∧ b.min.y ≤ b.max.y ∧ b.min.z ≤ b.max.z) ∧
  b.mid = (1 / 2 : ℚ) • (b.min + b.max) ∧
  b.size = b.max - b.min

/-- The constant bounding box that `generateSphere` assigns
(part_003 lines 742-745). -/
def sphereBB : BBox :=
  ⟨⟨-1, -1, -1⟩, ⟨1, 1, 1⟩, ⟨0, 0, 0⟩, ⟨2, 2, 2⟩⟩

theorem bbScan_acc_le (vs : List Vec3) (acc : Vec3 × Vec3) :
    (bbScan vs acc).1.x ≤ acc.1.x ∧ (bbScan vs acc).1.y ≤ acc.1.y ∧
    (bbScan vs acc).1.z ≤ acc.1.z ∧ acc.2.x ≤ (bbScan vs acc).2.x ∧
    acc.2.y ≤ (bbScan vs acc).2.y ∧ acc.2.z ≤ (bbScan vs acc).2.z := by
  induction vs generalizing acc with
  | nil => exact ⟨le_refl _, le_refl _, le_refl _, le_refl _, le_refl _, le_refl _⟩
  | cons w rest ih =>
    have h := ih (bbStep acc w)
    refine ⟨le_trans h.1 (min_le_right _ _), le_trans h.2.1 (min_le_right _ _),
      le_trans h.2.2.1 (min_le_right _ _), le_trans (le_max_right _ _) h.2.2.2.1,
      le_trans (le_max_right _ _) h.2.2.2.2.1, le_trans (le_max_right _ _) h.2.2.2.2.2⟩

theorem bbScan_mem_le (vs : List Vec3) (acc : Vec3 × Vec3) (v : Vec3) (hv : v ∈ vs) :
    (bbScan vs acc).1.x ≤ v.x ∧ (bbScan vs acc).1.y ≤ v.y ∧
    (bbScan vs acc).1.z ≤ v.z ∧ v.x ≤ (bbScan vs acc).2.x ∧
    v.y ≤ (bbScan vs acc).2.y ∧ v.z ≤ (bbScan vs acc).2.z := by
  induction vs generalizing acc with
  | nil => cases hv
  | cons w rest ih =>
    rcases List.mem_cons.mp hv with rfl | hv2
    · have h := bbScan_acc_le rest (bbStep acc v)
      exact ⟨le_trans h.1 (min_le_left _ _), le_trans h.2.1 (min_le_left _ _),
        le_trans h.2.2.1 (min_le_left _ _), le_trans (le_max_left _ _) h.2.2.2.1,
        le_trans (le_max_left _ _) h.2.2.2.2.1, le_trans (le_max_left _ _) h.2.2.2.2.2⟩
    · exact ih (bbStep acc w) hv2

/-- C6: for every nonempty vertex set, the recomputed bounding box satisfies
`Min ≤ Max` componentwise, `Mid = (Min+Max)/2` and `Size = Max - Min`; the
constant box assigned by `generateSphere` satisfies the same invariant, and
so does the box `generateTerrain` recomputes via `calculateBB` (its vertex
grid is never empty). -/
theorem C6_bb_invariant :
    (∀ vs : List Vec3, vs ≠ [] → (calculateBB vs).invariant) ∧
    sphereBB.invariant ∧
    (∀ (w h : ℕ) (hm : ℕ → ℕ → ℚ), (calculateBB (terrainVertices w h hm)).invariant) := by
  have hmain : ∀ vs : List Vec3, vs ≠ [] → (calculateBB vs).invariant := by
    intro vs hne
    obtain ⟨v, hv⟩ := List.exists_mem_of_ne_nil vs hne
    have h := bbScan_mem_le vs (clearedBBMin, clearedBBMax) v hv
    refine ⟨⟨le_trans h.1 h.2.2.2.1, le_trans h.2.1 h.2.2.2.2.1,
      le_trans h.2.2.1 h.2.2.2.2.2⟩, ?_, rfl⟩
    apply Vec3.ext_fields <;>
      simp only [calculateBB, Vec3.add_x, Vec3.add_y, Vec3.add_z, Vec3.smul_x,
        Vec3.smul_y, Vec3.smul_z] <;> ring
  refine ⟨hmain, ⟨?_, ?_, ?_⟩, fun w h hm => hmain _ ?_⟩
  · exact ⟨by norm_num [sphereBB], by norm_num [sphereBB], by norm_num [sphereBB]⟩
  · apply Vec3.ext_fields <;>
      simp only [Vec3.add_x, Vec3.add_y, Vec3.add_z, Vec3.smul_x, Vec3.smul_y,
        Vec3.smul_z, sphereBB] <;> norm_num
  · apply Vec3.ext_fields <;>
      simp only [Vec3.sub_x, Vec3.sub_y, Vec3.sub_z, sphereBB] <;> norm_num
  · have hlen : (terrainVertices w h hm).length = (h + 1) * (w + 1) := by
      rw [terrainVertices,
        flatMap_const_length (fun z => terrainRow w hm z) (w + 1)
          (fun j => terrainRow_length w hm j) (h + 1)]
    intro hnil
    rw [hnil] at hlen
    simp at hlen

theorem C6_bb_invariant_witness :
    ([(⟨0, 0, 0⟩ : Vec3)] ≠ []) ∧ (calculateBB [⟨0, 0, 0⟩]).invariant :=
  ⟨by simp, C6_bb_invariant.1 [⟨0, 0, 0⟩] (by simp)⟩

/-- A GL delete call issued by the teardown. -/
inductive GLDelete where
  | vertexArrays (id : ℕ)
  | buffers (id : ℕ)
deriving DecidableEq

/-- The delete calls `cleanupVBO(f)` issues, in source order, each guarded
by `handle != 0`. -/
def cleanupDeletes (hs : MeshHandles) : List GLDelete :=
  (if hs.VAO ≠ 0 then [GLDelete.vertexArrays hs.VAO] else []) ++
  (if hs.VBOv ≠ 0 then [GLDelete.buffers hs.VBOv] else []) ++
  (if hs.VBOn ≠ 0 then [GLDelete.buffers hs.VBOn] else []) ++
  (if hs.VBOf ≠ 0 then [GLDelete.buffers hs.VBOf] else []) ++
  (if hs.VBOc ≠ 0 then [GLDelete.buffers hs.VBOc] else []) ++
  (if hs.VBOt ≠ 0 then [GLDelete.buffers hs.VBOt] else []) ++
  (if hs.VBOtan ≠ 0 then [GLDelete.buffers hs.VBOtan] else []) ++
  (if hs.VAObb ≠ 0 then [GLDelete.vertexArrays hs.VAObb] else []) ++
  (if hs.VBOvbb ≠ 0 then [GLDelete.buffers hs.VBOvbb] else []) ++
  (if hs.VBOfbb ≠ 0 then [GLDelete.buffers hs.VBOfbb] else []) ++
  (if hs.VAOn ≠ 0 then [GLDelete.vertexArrays hs.VAOn] else []) ++
  (if hs.VBOvn ≠ 0 then [GLDelete.buffers hs.VBOvn] else [])

/-- `TriangleMesh::cleanupVBO(QOpenGLFunctions_3_3_Core* f)`: delete every
nonzero handle, then reset all handles to zero. -/
def cleanupVBOCore (m : Mesh) : Mesh × List GLDelete :=
  ({ m with handles := MeshHandles.allZero }, cleanupDeletes m.handles)

/-- The no-argument `TriangleMesh::cleanupVBO()`: returns immediately when
the GL-functions pointer is null, otherwise runs the teardown. -/
def cleanupVBO (m : Mesh) : Mesh × List GLDelete :=
  if m.hasGLFunctions then cleanupVBOCore m else (m, [])

/-- C8: teardown idempotence — after one `cleanupVBO` every handle is zero;
calling it again issues no delete call (no double-free) and leaves the
all-zero state unchanged; and on a mesh whose resources are already absent
the call issues no delete at all. -/
theorem C8_cleanup_idempotent (m : Mesh) (hgl : m.hasGLFunctions = true) :
    (cleanupVBO m).1.handles = MeshHandles.allZero ∧
    cleanupVBO (cleanupVBO m).1 = ((cleanupVBO m).1, []) ∧
    (m.handles = MeshHandles.allZero → (cleanupVBO m).2 = []) := by
  refine ⟨?_, ?_, fun hz => ?_⟩
  · simp [cleanupVBO, cleanupVBOCore, hgl]
  · simp [cleanupVBO, cleanupVBOCore, hgl, cleanupDeletes, MeshHandles.allZero]
  · simp [cleanupVBO, cleanupVBOCore, hgl, hz, cleanupDeletes, MeshHandles.allZero]

theorem C8_cleanup_idempotent_witness :
    sampleMeshTex.hasGLFunctions = true ∧
    ((cleanupVBO sampleMeshTex).1.handles = MeshHandles.allZero ∧
      cleanupVBO (cleanupVBO sampleMeshTex).1 = ((cleanupVBO sampleMeshTex).1, []) ∧
      (sampleMeshTex.handles = MeshHandles.allZero →
        (cleanupVBO sampleMeshTex).2 = [])) :=
  ⟨rfl, C8_cleanup_idempotent sampleMeshTex rfl⟩

/-- The end-of-frame notification logic of `OpenGLView::paintGL` (both
variants): given the previously recorded total `trianglesLastRun` and this
frame's `trianglesDrawn`, return the new recorded total and the emitted
notification, if any (`trianglesLastRun = trianglesDrawn; emit ...` only
when they differ). -/
def paintStep (trianglesLastRun trianglesDrawn : ℕ) : ℕ × Option ℕ :=
  if trianglesDrawn ≠ trianglesLastRun then (trianglesDrawn, some trianglesDrawn)
  else (trianglesLastRun, none)

/-- A sequence of paint frames: per frame, the recorded total before the
frame, the frame's drawn total, and the emitted notification. -/
def runFrames (last : ℕ) (totals : List ℕ) : List (ℕ × ℕ × Option ℕ) :=
  match totals with
  | [] => []
  | t :: ts => (last, t, (paintStep last t).2) :: runFrames (paintStep last t).1 ts

/-- The recorded total (`trianglesLastRun`) before frame `i`. -/
def recordedBefore (last : ℕ) (totals : List ℕ) (i : ℕ) : ℕ :=
  (totals.take i).foldl (fun l t => (paintStep l t).1) last

/-- C9: across any frame sequence, frame `i` emits the triangle-count
notification iff its drawn total differs from the recorded total before the
frame (none is emitted when they are equal, and the emitted value is the new
total); and the recorded total after the frame is the new total when a
notification was emitted and is unchanged otherwise. -/
theorem C9_notification (last : ℕ) (totals : List ℕ) (i : ℕ) (hi : i < totals.length) :
    (runFrames last totals)[i]? =
      some (recordedBefore last totals i, totals.getD i 0,
        if totals.getD i 0 ≠ recordedBefore last totals i then some (totals.getD i 0)
        else none) ∧
    recordedBefore last totals (i + 1) =
      (if totals.getD i 0 ≠ recordedBefore last totals i then totals.getD i 0
       else recordedBefore last totals i) := by
  induction totals generalizing last i with
  | nil => cases hi
  | cons t ts ih =>
    rcases i with _ | j
    · constructor
      · simp only [runFrames, List.getElem?_cons_zero, recordedBefore, List.take_zero,
          List.foldl_nil, List.getD_cons_zero, paintStep]
        split <;> simp
      · simp only [recordedBefore, List.take_succ_cons, List.take_zero, List.foldl_cons,
          List.foldl_nil, List.getD_cons_zero, paintStep]
        split <;> simp
    · have hj : j < ts.length := by simpa using hi
      have h := ih (paintStep last t).1 j hj
      constructor
      · simpa only [runFrames, List.getElem?_cons_succ, recordedBefore,
          List.take_succ_cons, List.foldl_cons, List.getD_cons_succ] using h.1
      · simpa only [recordedBefore, List.take_succ_cons, List.foldl_cons,
          List.getD_cons_succ] using h.2

theorem C9_notification_witness :
    (1 : ℕ) < ([5, 5] : List ℕ).length ∧
    ((runFrames 0 [5, 5])[1]? =
      some (recordedBefore 0 [5, 5] 1, ([5, 5] : List ℕ).getD 1 0,
        if ([5, 5] : List ℕ).getD 1 0 ≠ recordedBefore 0 [5, 5] 1
        then some (([5, 5] : List ℕ).getD 1 0) else none) ∧
     recordedBefore 0 [5, 5] (1 + 1) =
      (if ([5, 5] : List ℕ).getD 1 0 ≠ recordedBefore 0 [5, 5] 1
       then ([5, 5] : List ℕ).getD 1 0 else recordedBefore 0 [5, 5] 1)) :=
  ⟨by decide, C9_notification 0 [5, 5] 1 (by decide)⟩

/-- Structured token content of an OFF/NOFF file: the header tag characters,
the three counts of the counts line, and per-index vertex, normal and face
records modelling the stream reads (the per-face leading vertex count read
into `three` is consumed and ignored by the source, and is omitted here). -/
structure OFFFile where
  tag : List Char
  nv : ℤ
  nf : ℤ
  ne : ℤ
  vertexData : ℕ → Vec3
  normalData : ℕ → Vec3
  faceData : ℕ → Triangle

/-- Values of the real-valued scalar functions used by
`calculateTexCoordsSphereMapping` (`std::atan2`, `std::asin`, `std::sqrt`
and the constant `M_1_PI`), supplied as parameters because they are
transcendental; no claim in this development depends on their values. -/
structure ROps where
  atan2 : ℚ → ℚ → ℚ
  asin : ℚ → ℚ
  sqrt : ℚ → ℚ
  invPi : ℚ

/-- `TriangleMesh::calculateTexCoordsSphereMapping`: for each vertex, with
`dist = vertex - boundingBoxMid`, emit
`u = (M_1_PI/2) * atan2(dist.x, dist.z) + 0.5` and
`v = M_1_PI * asin(dist.y / sqrt(dist.x² + dist.y² + dist.z²))`. -/
def calculateTexCoordsSphereMapping (ops : ROps) (vertices : List Vec3) (mid : Vec3) :
    List (ℚ × ℚ) :=
  vertices.map fun vertex =>
    let dist := vertex - mid
    ((ops.invPi / 2) * ops.atan2 dist.x dist.z + 1 / 2,
     ops.invPi * ops.asin (dist.y /
       ops.sqrt (dist.x * dist.x + dist.y * dist.y + dist.z * dist.z)))

/-- `TriangleMesh::clear`: empty all geometry sequences (`tangents` is not
cleared by the source), reset the bounding box to the `FLT_MAX` sentinels,
reset the draw-mode state, and release the GPU resources. -/
def clear (m : Mesh) : Mesh :=
  (cleanupVBO
    { m with vertices := [], triangles := [], normals := [], colors := [],
             texCoords := [],
             boundingBoxMin := clearedBBMin, boundingBoxMax := clearedBBMax,
             boundingBoxMid := 0, boundingBoxSize := 0,
             coloringType := ColoringType.STATIC_COLOR,
             withBB := false, withNormals := false, textureID := 0 }).1

/-- `TriangleMesh::createAllVBOs`: returns immediately when the GL-functions
pointer is null; otherwise uploads the buffers and stores the
driver-assigned object names, modelled by the parameter `hs`. -/
def createAllVBOs (hs : MeshHandles) (m : Mesh) : Mesh :=
  if m.hasGLFunctions then { m with handles := hs } else m

/-- `s[i]` of the header-tag character buffer (short tokens are
NUL-terminated by the stream read). -/
def tagChar (t : List Char) (i : ℕ) : Char := t.getD i (Char.ofNat 0)

/-- The header check `s[0] == 'O' && s[1] == 'F' && s[2] == 'F'`. -/
def isOFFTag (t : List Char) : Bool :=
  tagChar t 0 == 'O' && tagChar t 1 == 'F' && tagChar t 2 == 'F'

/-- The header check `s[0] == 'N' && s[1] == 'O' && s[2] == 'F' && s[3] == 'F'`. -/
def isNOFFTag (t : List Char) : Bool :=
  tagChar t 0 == 'N' && tagChar t 1 == 'O' && tagChar t 2 == 'F' && tagChar t 3 == 'F'

/-- The body of `loadOFF` after a recognized header: read the counts and
bail out (mesh stays cleared) on `nv <= 0 || nf <= 0`; read `nv` vertices
while folding the bounding box from the cleared sentinels (and, for NOFF,
writing each vertex's normal into `normals[i]` — the source never resizes
`normals`, so these `List.set` writes on the cleared empty list are
no-ops); set `Mid`/`Size`; read `nf` triangles; synthesize normals
(`calculateNormalsByArea`, OFF only) and texture coordinates; optionally
build the GPU buffers. -/
def loadOFFParse (ops : ROps) (hs : MeshHandles) (m0 : Mesh) (f : OFFFile)
    (noff : Bool) (createVBOs : Bool) : Mesh :=
  if f.nv ≤ 0 ∨ f.nf ≤ 0 then m0
  else
    let nv := f.nv.toNat
    let nf := f.nf.toNat
    let verts := (List.range nv).map f.vertexData
    let p := bbScan verts (m0.boundingBoxMin, m0.boundingBoxMax)
    let normalsRead :=
      if noff then
        (List.range nv).foldl (fun ns i => ns.set i (f.normalData i)) m0.normals
      else m0.normals
    let mid := (1 / 2 : ℚ) • p.1 + (1 / 2 : ℚ) • p.2
    let tris := (List.range nf).map f.faceData
    let normalsFinal :=
      if noff then normalsRead else calculateNormalsByArea verts normalsRead tris
    let m1 : Mesh :=
      { m0 with
        vertices := verts
        triangles := tris
        boundingBoxMin := p.1
        boundingBoxMax := p.2
        boundingBoxMid := mid
        boundingBoxSize := p.2 - p.1
        normals := normalsFinal
        texCoords := calculateTexCoordsSphereMapping ops verts mid }
    if createVBOs then createAllVBOs hs m1 else m1

/-- The `normals[i]` writes performed by the NOFF branch, each paired with
the length of `normals` at the moment of the write (`List.set` never
changes the length, and nothing resizes `normals` before these writes). -/
def loadOFFNormalsWrites (m0 : Mesh) (f : OFFFile) (noff : Bool) : List (ℕ × ℕ) :=
  if noff then
    if f.nv ≤ 0 ∨ f.nf ≤ 0 then []
    else (List.range f.nv.toNat).map (fun i => (i, m0.normals.length))
  else []

/-- The result of `loadOFF`: the mesh, the diagnostic messages printed, and
the trace of writes into `normals`. -/
structure LoadResult where
  mesh : Mesh
  messages : List String
  normalsWrites : List (ℕ × ℕ)

/-- `TriangleMesh::loadOFF(filename, createVBOs)`: clear the mesh; a missing
file prints `"loadOFF: can not find ..."` and returns; then the header tag
is checked — `OFF` parses without embedded normals, `NOFF` with them, and
any other tag returns (silently). -/
def loadOFF (ops : ROps) (hs : MeshHandles) (m : Mesh) (file : Option OFFFile)
    (createVBOs : Bool) : LoadResult :=
  let m0 := clear m
  match file with
  | none => ⟨m0, ["loadOFF: can not find file"], []⟩
  | some f =>
      if isOFFTag f.tag then
        ⟨loadOFFParse ops hs m0 f false createVBOs, [], loadOFFNormalsWrites m0 f false⟩
      else if isNOFFTag f.tag then
        ⟨loadOFFParse ops hs m0 f true createVBOs, [], loadOFFNormalsWrites m0 f true⟩
      else ⟨m0, [], []⟩

/-- `TriangleMesh::draw`: returns 0 when the bounding box is not visible
under the current render state (the visibility test's value is passed in),
or when no VAO exists; otherwise, after the optional debug draws, issues the
indexed draw and returns the triangle count. -/
def draw (m : Mesh) (visible : Bool) : ℕ :=
  if ¬visible then 0
  else if m.handles.VAO = 0 then 0
  else m.triangles.length

/-- Scalar-function parameters with all values zero (their values are
irrelevant to the claims). -/
def trivialROps : ROps := ⟨fun _ _ => 0, fun _ => 0, fun _ => 0, 0⟩

/-- A file whose header tag is neither `OFF` nor `NOFF`. -/
def badHeaderFile : OFFFile :=
  ⟨['X', 'Y', 'Z'], 1, 1, 0, fun _ => 0, fun _ => 0, fun _ => ⟨0, 0, 0⟩⟩

/-- C7 counterexample: on an unrecognized header tag `loadOFF` returns
silently — the mesh is left empty but NO diagnostic is printed, refuting
the claim that a diagnostic message is emitted in this case (the source's
`else return;` at the header check prints nothing). -/
theorem C7_bad_header_silent :
    (loadOFF trivialROps MeshHandles.allZero sampleMeshTex (some badHeaderFile)
        true).messages = [] ∧
    (loadOFF trivialROps MeshHandles.allZero sampleMeshTex (some badHeaderFile)
        true).mesh.vertices = [] := by
  constructor <;> rfl

/-- C7 (amended): for a missing file or an unrecognized header tag,
`loadOFF` leaves the mesh in the empty state — no vertices, triangles,
normals, colors or texCoords, and all GPU handles zero — and a subsequent
draw returns 0 under every render state; a diagnostic is printed in the
missing-file case, while an unrecognized header tag returns silently with
no message (and no exception is thrown: the model is a total function). -/
theorem C7_load_failure_empty (ops : ROps) (hs : MeshHandles) (m : Mesh)
    (file : Option OFFFile) (createVBOs : Bool) (hgl : m.hasGLFunctions = true)
    (hfail : file = none ∨
      ∃ f, file = some f ∧ isOFFTag f.tag = false ∧ isNOFFTag f.tag = false) :
    (loadOFF ops hs m file createVBOs).mesh.vertices = [] ∧
    (loadOFF ops hs m file createVBOs).mesh.triangles = [] ∧
    (loadOFF ops hs m file createVBOs).mesh.normals = [] ∧
    (loadOFF ops hs m file createVBOs).mesh.colors = [] ∧
    (loadOFF ops hs m file createVBOs).mesh.texCoords = [] ∧
    (loadOFF ops hs m file createVBOs).mesh.handles = MeshHandles.allZero ∧
    (∀ visible, draw (loadOFF ops hs m file createVBOs).mesh visible = 0) ∧
    (file = none → (loadOFF ops hs m file createVBOs).messages
        = ["loadOFF: can not find file"]) ∧
    (file ≠ none → (loadOFF ops hs m file createVBOs).messages = []) := by
  have hclear : (clear m).vertices = [] ∧ (clear m).triangles = [] ∧
      (clear m).normals = [] ∧ (clear m).colors = [] ∧ (clear m).texCoords = [] ∧
      (clear m).handles = MeshHandles.allZero := by
    simp [clear, cleanupVBO, cleanupVBOCore, hgl]
  have hdraw : ∀ mm : Mesh, mm.handles = MeshHandles.allZero →
      ∀ visible, draw mm visible = 0 := by
    intro mm hz visible
    cases visible <;> simp [draw, hz, MeshHandles.allZero]
  rcases hfail with rfl | ⟨f, rfl, hoff, hnoff⟩
  · exact ⟨hclear.1, hclear.2.1, hclear.2.2.1, hclear.2.2.2.1, hclear.2.2.2.2.1,
      hclear.2.2.2.2.2, hdraw _ hclear.2.2.2.2.2, fun _ => rfl, fun h => absurd rfl h⟩
  · have hres : loadOFF ops hs m (some f) createVBOs = ⟨clear m, [], []⟩ := by
      rw [loadOFF]
      simp [hoff, hnoff]
    rw [hres]
    exact ⟨hclear.1, hclear.2.1, hclear.2.2.1, hclear.2.2.2.1, hclear.2.2.2.2.1,
      hclear.2.2.2.2.2, hdraw _ hclear.2.2.2.2.2,
      fun h => (Option.some_ne_none f h).elim, fun _ => rfl⟩

theorem C7_load_failure_empty_witness :
    (sampleMeshTex.hasGLFunctions = true ∧
      ((some badHeaderFile : Option OFFFile) = none ∨
        ∃ f, (some badHeaderFile : Option OFFFile) = some f ∧
          isOFFTag f.tag = false ∧ isNOFFTag f.tag = false)) ∧
    (loadOFF trivialROps MeshHandles.allZero sampleMeshTex (some badHeaderFile)
        true).mesh.vertices = [] ∧
    (loadOFF trivialROps MeshHandles.allZero sampleMeshTex (some badHeaderFile)
        true).mesh.triangles = [] ∧
    (loadOFF trivialROps MeshHandles.allZero sampleMeshTex (some badHeaderFile)
        true).mesh.normals = [] ∧
    (loadOFF trivialROps MeshHandles.allZero sampleMeshTex (some badHeaderFile)
        true).mesh.colors = [] ∧
    (loadOFF trivialROps MeshHandles.allZero sampleMeshTex (some badHeaderFile)
        true).mesh.texCoords = [] ∧
    (loadOFF trivialROps MeshHandles.allZero sampleMeshTex (some badHeaderFile)
        true).mesh.handles = MeshHandles.allZero ∧
    (∀ visible, draw (loadOFF trivialROps MeshHandles.allZero sampleMeshTex
        (some badHeaderFile) true).mesh visible = 0) ∧
    ((some badHeaderFile : Option OFFFile) = none →
      (loadOFF trivialROps MeshHandles.allZero sampleMeshTex (some badHeaderFile)
          true).messages = ["loadOFF: can not find file"]) ∧
    ((some badHeaderFile : Option OFFFile) ≠ none →
      (loadOFF trivialROps MeshHandles.allZero sampleMeshTex (some badHeaderFile)
          true).messages = []) :=
  ⟨⟨rfl, Or.inr ⟨badHeaderFile, rfl, rfl, rfl⟩⟩,
   C7_load_failure_empty trivialROps MeshHandles.allZero sampleMeshTex
     (some badHeaderFile) true rfl (Or.inr ⟨badHeaderFile, rfl, rfl, rfl⟩)⟩

/-- A well-formed one-vertex, one-face NOFF file. -/
def noffFile : OFFFile :=
  ⟨['N', 'O', 'F', 'F'], 1, 1, 0, fun _ => ⟨0, 0, 0⟩, fun _ => ⟨0, 0, 1⟩,
   fun _ => ⟨0, 0, 0⟩⟩

/-- C10 (code bug): `clear()` empties `normals`, and the NOFF branch of
`loadOFF` resizes only `vertices` (`vertices.resize(nv)`) and never resizes
`normals`, yet writes `normals[i]` for every `i < nv`.  For the well-formed
one-vertex NOFF file the single write targets index 0 while `normals` has
length 0 at the time of the access — out of bounds, refuting the claim that
every such write is in bounds. -/
theorem C10_noff_write_out_of_bounds :
    (loadOFF trivialROps MeshHandles.allZero sampleMeshTex (some noffFile)
        true).normalsWrites = [(0, 0)] ∧
    ∀ p ∈ (loadOFF trivialROps MeshHandles.allZero sampleMeshTex (some noffFile)
        true).normalsWrites, ¬ p.1 < p.2 := by
  constructor
  · rfl
  · intro p hp
    have hw : (loadOFF trivialROps MeshHandles.allZero sampleMeshTex (some noffFile)
        true).normalsWrites = [(0, 0)] := rfl
    rw [hw] at hp
    simp only [List.mem_singleton] at hp
    subst hp
    decide
